import Mathlib

/-!
Verification development for the govwatcher-archive capture-and-diff pipeline.

The Python sources under `src/govwatcher-archive/src/` are shallowly embedded:
each class method becomes a Lean function over explicit state records, machine
side effects (database rows, the Redis key space, the artifact filesystem)
become fields of those records, and wall-clock reads (`datetime.now()`,
`time.time()`) become explicit `Nat` time parameters.  External collaborators
(the SHA-256 digest, difflib's `SequenceMatcher.get_opcodes`, the OpenCV
visual-diff render, JSON serialization) are passed in as function parameters.
-/

namespace GovWatcher

/-- Configuration values from `config.py` that the embedded code reads. -/
structure Config where
  highPriorityThreshold : Nat
  normalPriorityThreshold : Nat
  highPriorityInterval : Nat
  normalPriorityInterval : Nat
  lowPriorityInterval : Nat
  diffSizeThreshold : Nat
  enableVisualDiff : Bool
  enableScreenshots : Bool
  enablePdf : Bool
  storagePath : String
deriving Repr, DecidableEq

/-- The default configuration constructed by `Config.__init__` with no
environment overrides. -/
def defaultConfig : Config where
  highPriorityThreshold := 1
  normalPriorityThreshold := 3
  highPriorityInterval := 7 * 24 * 3600
  normalPriorityInterval := 14 * 24 * 3600
  lowPriorityInterval := 30 * 24 * 3600
  diffSizeThreshold := 10
  enableVisualDiff := true
  enableScreenshots := true
  enablePdf := true
  storagePath := "/data/archives"

/-- A row of the `archives` table, also standing for the in-memory `Archive`
object (`models/archive.py`); only fields the embedded operations touch are
kept. -/
structure ArchiveRow where
  id : Nat
  domain : String
  priority : Nat
  enabled : Bool
  lastCheckedAt : Option Nat
  lastChangedAt : Option Nat
deriving Repr, DecidableEq

/-- A row of the `snapshots` table (`models/snapshot.py`). -/
structure SnapshotRow where
  id : Nat
  archiveId : Nat
  captureTimestamp : Nat
  contentHash : String
  status : Nat
  htmlPath : Option String
  textPath : Option String
  screenshotPath : Option String
deriving Repr, DecidableEq

/-- A row of the `archive_queue` table. -/
structure QueueRow where
  id : Nat
  archiveId : Nat
  operation : String
  status : String
  priority : Nat
  scheduledFor : Nat
deriving Repr, DecidableEq

/-- A row of the `diffs` table. -/
structure DiffRow where
  id : Nat
  archiveId : Nat
  oldSnapshotId : Nat
  newSnapshotId : Nat
  diffTimestamp : Nat
  diffPath : String
  statsJson : String
  significance : Nat
  visualDiffPath : Option String
deriving Repr, DecidableEq

/-- The relational database of record.  `db.insert` allocates ids from the
`next*Id` counters. -/
structure DbState where
  archives : List ArchiveRow
  snapshots : List SnapshotRow
  archiveQueue : List QueueRow
  diffs : List DiffRow
  nextSnapshotId : Nat
  nextQueueId : Nat
  nextDiffId : Nat
deriving Repr, DecidableEq

/-! ### Redis work queue (`utils/redis_client.py`)

A job's Redis hash `jobs:<job_id>` is modelled as a typed record: the only
fields ever written are the ones below, always with integer or string values.
An absent `retries` field reads as `0` (`hget ... or 0`) and an absent
`priority` field reads as `5` (`hget ... or 5`), which the record defaults
reproduce; a job key that is missing entirely behaves as the default record. -/

structure JobHash where
  status : String := ""
  priority : Nat := 5
  createdAt : Nat := 0
  data : String := ""
  retries : Nat := 0
  lastError : Option String := none
  errorMsg : Option String := none
  startedAt : Option Nat := none
  completedAt : Option Nat := none
  failedAt : Option Nat := none
deriving Repr, DecidableEq

/-- The slice of the Redis key space the queue functions use: the global
`jobs:*` hashes, the per-queue sorted set `queue:<name>`, the per-queue
processing set `processing:<name>`, and the per-queue counters
`stats:<name>:completed` / `stats:<name>:failed`. -/
structure RedisState where
  jobs : List (String × JobHash)
  queues : List (String × List (String × Nat))
  processing : List (String × List String)
  completedStats : List (String × Nat)
  failedStats : List (String × Nat)
deriving Repr, DecidableEq

def RedisState.empty : RedisState := ⟨[], [], [], [], []⟩

/-- Association-list read with a default, mirroring a Redis read of a key
that may be absent. -/
def alistGet (l : List (String × α)) (k : String) (d : α) : α :=
  match l.find? (fun p => p.1 == k) with
  | some p => p.2
  | none => d

/-- Association-list write: replace the binding for `k` (or add one). -/
def alistSet (l : List (String × α)) (k : String) (v : α) : List (String × α) :=
  match l with
  | [] => [(k, v)]
  | p :: rest => if p.1 == k then (k, v) :: rest else p :: alistSet rest k v

/-- Read the job hash for `jobId` (a missing key reads as the defaults). -/
def RedisState.job (st : RedisState) (jobId : String) : JobHash :=
  alistGet st.jobs jobId {}

/-- Overwrite the job hash for `jobId`. -/
def RedisState.setJob (st : RedisState) (jobId : String) (j : JobHash) : RedisState :=
  { st with jobs := alistSet st.jobs jobId j }

/-- `ZADD queue:<q> score member`: update the member's score, or add it. -/
def RedisState.zadd (st : RedisState) (q member : String) (score : Nat) : RedisState :=
  let zset := alistGet st.queues q []
  let zset := zset.filter (fun p => p.1 ≠ member) ++ [(member, score)]
  { st with queues := alistSet st.queues q zset }

/-- `SADD processing:<q> member`. -/
def RedisState.sadd (st : RedisState) (q member : String) : RedisState :=
  let s := alistGet st.processing q []
  let s := if member ∈ s then s else s ++ [member]
  { st with processing := alistSet st.processing q s }

/-- `SREM processing:<q> member`. -/
def RedisState.srem (st : RedisState) (q member : String) : RedisState :=
  let s := (alistGet st.processing q []).filter (fun m => m ≠ member)
  { st with processing := alistSet st.processing q s }

/-- `INCR stats:<q>:failed`. -/
def RedisState.incrFailed (st : RedisState) (q : String) : RedisState :=
  { st with failedStats := alistSet st.failedStats q (alistGet st.failedStats q 0 + 1) }

/-- `INCR stats:<q>:completed`. -/
def RedisState.incrCompleted (st : RedisState) (q : String) : RedisState :=
  { st with completedStats := alistSet st.completedStats q (alistGet st.completedStats q 0 + 1) }

/-- `RedisClient.enqueue_job(queue_name, job_data, priority)`.  The job id is
`job:<unix time>:<job_data.get('id','')>`; `dataId` is that `id` field's
string form (empty for payloads without an `id` key) and `dataJson` the
serialized payload.  Writes the job hash and `ZADD`s the queue with the
priority as score; returns the job id. -/
def enqueueJob (st : RedisState) (queueName dataId dataJson : String)
    (priority now : Nat) : RedisState × String :=
  let jobId := "job:" ++ toString now ++ ":" ++ dataId
  let st := st.setJob jobId
    { status := "pending", priority := priority, createdAt := now, data := dataJson }
  let st := st.zadd queueName jobId priority
  (st, jobId)

/-- `RedisClient.complete_job(queue_name, job_id, result)` (result payload
elided: it writes an extra hash field the claims never read). -/
def completeJob (st : RedisState) (queueName jobId : String) (now : Nat) : RedisState :=
  let j := st.job jobId
  let st := st.setJob jobId { j with status := "completed", completedAt := some now }
  let st := st.srem queueName jobId
  st.incrCompleted queueName

/-- `RedisClient.fail_job(queue_name, job_id, error, retry, max_retries)`. -/
def failJob (st : RedisState) (queueName jobId : String) (error : Option String)
    (retry : Bool) (maxRetries : Nat) (now : Nat) : RedisState :=
  let retries := (st.job jobId).retries
  let st :=
    if retry ∧ retries < maxRetries then
      let j := st.job jobId
      let st := st.setJob jobId
        { j with retries := j.retries + 1, lastError := some (error.getD "Unknown error") }
      let priority := (st.job jobId).priority
      let st := st.zadd queueName jobId (priority + 1)
      let j := st.job jobId
      st.setJob jobId { j with status := "pending" }
    else
      let j := st.job jobId
      let st := st.setJob jobId
        { j with status := "failed", failedAt := some now,
                 errorMsg := match error with | some e => some e | none => j.errorMsg }
      st.incrFailed queueName
  st.srem queueName jobId

/-! ### Catalog operations (`models/archive.py`, `models/snapshot.py`) -/

/-- `db.update('archives', ..., 'id = %(id)s', ...)`: rewrite the rows whose
id matches. -/
def DbState.updateArchive (db : DbState) (aid : Nat) (f : ArchiveRow → ArchiveRow) : DbState :=
  { db with archives := db.archives.map (fun a => if a.id = aid then f a else a) }

/-- `Archive.update_check_time`: set the in-memory `last_checked_at` to now
and write that one column. -/
def updateCheckTime (obj : ArchiveRow) (db : DbState) (now : Nat) : ArchiveRow × DbState :=
  let obj := { obj with lastCheckedAt := some now }
  (obj, db.updateArchive obj.id (fun a => { a with lastCheckedAt := some now }))

/-- `Archive.update_change_time`: set the in-memory `last_changed_at` to now
and write both `last_changed_at` and the object's current (unchanged)
`last_checked_at`. -/
def updateChangeTime (obj : ArchiveRow) (db : DbState) (now : Nat) : ArchiveRow × DbState :=
  let obj := { obj with lastChangedAt := some now }
  (obj, db.updateArchive obj.id (fun a =>
    { a with lastChangedAt := some now, lastCheckedAt := obj.lastCheckedAt }))

/-- The `ORDER BY priority ASC, last_checked_at ASC NULLS FIRST` comparison
on archive rows, as a boolean total preorder. -/
def archiveKeyLe (a b : ArchiveRow) : Bool :=
  if a.priority = b.priority then
    match a.lastCheckedAt, b.lastCheckedAt with
    | none, _ => true
    | some _, none => false
    | some x, some y => x ≤ y
  else a.priority < b.priority

def insertArchiveSorted (a : ArchiveRow) : List ArchiveRow → List ArchiveRow
  | [] => [a]
  | b :: rest =>
    if archiveKeyLe a b then a :: b :: rest else b :: insertArchiveSorted a rest

/-- Stable sort realizing the SQL `ORDER BY` of `Archive.get_pending`. -/
def sortArchives : List ArchiveRow → List ArchiveRow
  | [] => []
  | a :: rest => insertArchiveSorted a (sortArchives rest)

/-- The `LEFT JOIN archive_queue ... AND q.status IN ('pending','in_progress')
... AND q.id IS NULL` condition: the archive has an outstanding queue entry. -/
def hasOutstandingEntry (q : List QueueRow) (aid : Nat) : Bool :=
  q.any (fun e => e.archiveId == aid && (e.status == "pending" || e.status == "in_progress"))

/-- `Archive.get_pending(db, max_records)`: enabled archives with no
pending/in-progress queue entry, ordered by
`(priority ASC, last_checked_at ASC NULLS FIRST)`, limited to `max_records`.
The query applies no condition on how recently a site was checked. -/
def getPending (db : DbState) (maxRecords : Nat) : List ArchiveRow :=
  (sortArchives (db.archives.filter
    (fun a => a.enabled && !hasOutstandingEntry db.archiveQueue a.id))).take maxRecords

/-- Fold step selecting the row with the maximal `capture_timestamp`
(keeping the earlier row on a tie). -/
def latestChoose (acc : Option SnapshotRow) (s : SnapshotRow) : Option SnapshotRow :=
  match acc with
  | none => some s
  | some b => if b.captureTimestamp < s.captureTimestamp then some s else acc

/-- `Snapshot.get_latest_for_archive`: the snapshot of the archive with the
greatest `capture_timestamp` (`ORDER BY capture_timestamp DESC LIMIT 1`; on a
timestamp tie the row kept first in the table is returned). -/
def getLatestForArchive (db : DbState) (aid : Nat) : Option SnapshotRow :=
  (db.snapshots.filter (fun s => s.archiveId == aid)).foldl latestChoose none

/-- `Snapshot.get_by_id`. -/
def getSnapshotById (db : DbState) (sid : Nat) : Option SnapshotRow :=
  db.snapshots.find? (fun s => s.id == sid)

/-- `Snapshot.save` on a fresh snapshot (`self.id` unset, so the insert
branch runs): the row is inserted with a generated id, which is returned. -/
def snapshotInsert (db : DbState) (s : SnapshotRow) : DbState × Nat :=
  let sid := db.nextSnapshotId
  ({ db with snapshots := db.snapshots ++ [{ s with id := sid }],
             nextSnapshotId := sid + 1 }, sid)

/-- `db.insert('archive_queue', ...)`. -/
def queueInsert (db : DbState) (aid : Nat) (operation status : String)
    (priority schedFor : Nat) : DbState :=
  let qid := db.nextQueueId
  { db with
      archiveQueue := db.archiveQueue ++ [⟨qid, aid, operation, status, priority, schedFor⟩],
      nextQueueId := qid + 1 }

/-! ### Capture worker (`crawlers/webpage_crawler.py`) -/

/-- The HTTP response handed back by `requests`. -/
structure HttpResponse where
  statusCode : Nat
  text : String
  finalUrl : String
deriving Repr, DecidableEq

/-- `CrawlResult` from `webpage_crawler.py`. -/
structure CrawlResult where
  success : Bool := false
  warcPath : Option String := none
  screenshotPath : Option String := none
  htmlPath : Option String := none
  textPath : Option String := none
  pdfPath : Option String := none
  contentHash : Option String := none
  statusCode : Option Nat := none
  sizeBytes : Option Nat := none
  error : Option String := none
  metadata : List (String × String) := []
deriving Repr, DecidableEq

/-- `WebpageCrawler.crawl(domain)`, with the HTTP fetch reified as the
`resp` argument and the external collaborators passed in: `sha256Hex` is the
SHA-256 hex digest of a UTF-8 string, `extractText` the BeautifulSoup text
projection, and `screenshotOk`/`pdfOk` whether the headless-browser steps
succeeded (they swallow their own failures and yield no path). -/
def crawl (cfg : Config) (sha256Hex _extractText : String → String)
    (screenshotOk pdfOk : Bool) (tempDir domain : String)
    (resp : HttpResponse) (now : Nat) : CrawlResult :=
  let url := "https://" ++ domain
  let md := [("url", url), ("timestamp", toString now), ("domain", domain)]
  let base : CrawlResult :=
    { statusCode := some resp.statusCode,
      metadata := md ++ [("final_url", resp.finalUrl)] }
  if resp.statusCode ≠ 200 then
    { base with error := some ("HTTP status code: " ++ toString resp.statusCode) }
  else
    let screenshotFile :=
      if cfg.enableScreenshots && screenshotOk then some (tempDir ++ "/screenshot.png")
      else none
    let pdfFile :=
      if cfg.enablePdf && pdfOk then some (tempDir ++ "/content.pdf") else none
    let md := base.metadata
      ++ (if cfg.enableScreenshots then [("screenshot_taken", toString screenshotFile.isSome)] else [])
      ++ (if cfg.enablePdf then [("pdf_generated", toString pdfFile.isSome)] else [])
    { base with
        metadata := md,
        htmlPath := some (tempDir ++ "/content.html"),
        textPath := some (tempDir ++ "/content.txt"),
        screenshotPath := screenshotFile,
        pdfPath := pdfFile,
        warcPath := some (tempDir ++ "/original.warc"),
        contentHash := some (sha256Hex resp.text),
        sizeBytes := some resp.text.length,
        success := true }

/-! ### Crawler manager (`crawlers/crawler_manager.py`)

`datetime.now()` is read several times inside one call; within a single
embedded call the same `now` parameter stands for all of them.  The
`active_crawls` bookkeeping (add on entry, remove in the `finally`) has no
net effect on a single non-reentrant call and is elided. -/

/-- `CrawlerManager._process_changes(archive, new_snapshot)`.  Note the
source fetches `Snapshot.get_latest_for_archive` over all snapshots of the
archive (the just-saved one included) and exits early when the returned row
is the new snapshot itself. -/
def processChanges (db : DbState) (rd : RedisState) (obj : ArchiveRow)
    (newSnap : SnapshotRow) (now : Nat) : DbState × RedisState × ArchiveRow :=
  match getLatestForArchive db obj.id with
  | none => (db, rd, obj)
  | some prev =>
    if prev.id = newSnap.id then (db, rd, obj)
    else if prev.contentHash = newSnap.contentHash then (db, rd, obj)
    else
      let (obj, db) := updateChangeTime obj db now
      let jobJson := "archive_id=" ++ toString obj.id
        ++ ";old_snapshot_id=" ++ toString prev.id
        ++ ";new_snapshot_id=" ++ toString newSnap.id
      let (rd, _) := enqueueJob rd "archive:diff" "" jobJson 3 now
      let db := queueInsert db obj.id "diff" "pending" 3 now
      (db, rd, obj)

/-- The combined post-state of `CrawlerManager.crawl_archive`. -/
structure CrawlOutcome where
  db : DbState
  redis : RedisState
  obj : ArchiveRow
  ok : Bool
deriving Repr, DecidableEq

/-- `CrawlerManager.crawl_archive(archive)`, with the already-computed
`WebpageCrawler.crawl` result passed in.  On success it advances the check
time, inserts the snapshot row, and runs change detection; on failure it
only logs and returns `False`. -/
def crawlArchive (db : DbState) (rd : RedisState) (obj : ArchiveRow)
    (result : CrawlResult) (now : Nat) : CrawlOutcome :=
  if result.success then
    let (obj, db) := updateCheckTime obj db now
    let snap : SnapshotRow :=
      { id := 0, archiveId := obj.id, captureTimestamp := now,
        contentHash := result.contentHash.getD "",
        status := result.statusCode.getD 0,
        htmlPath := result.htmlPath, textPath := result.textPath,
        screenshotPath := result.screenshotPath }
    let (db, sid) := snapshotInsert db snap
    let (db, rd, obj) := processChanges db rd obj { snap with id := sid } now
    ⟨db, rd, obj, true⟩
  else ⟨db, rd, obj, false⟩

/-! ### Diff engine (`processors/diff_processor.py`)

Python integers are embedded as `Int` where a value can go negative
(hunk starts and counts); list indices stay `Nat`.  `old_lines[i]` is read
with `List.getD` (the default is never reached on the in-bounds index ranges
a `SequenceMatcher` produces). -/

/-- One change entry of a hunk. -/
structure Change where
  type : String
  content : String
  oldLine : Option Int
  newLine : Option Int
deriving Repr, DecidableEq

/-- One hunk of the diff document; `content` is the `@@ ... @@` header. -/
structure Hunk where
  content : String
  oldStart : Int
  oldLines : Int
  newStart : Int
  newLines : Int
  changes : List Change
deriving Repr, DecidableEq

/-- A `SequenceMatcher.get_opcodes()` entry `(tag, i1, i2, j1, j2)`. -/
structure Opcode where
  tag : String
  i1 : Nat
  i2 : Nat
  j1 : Nat
  j2 : Nat
deriving Repr, DecidableEq

/-- The f-string `@@ -{old_start},{old_count} +{new_start},{new_count} @@`. -/
def hunkHeader (oldStart oldCount newStart newCount : Int) : String :=
  "@@ -" ++ toString oldStart ++ "," ++ toString oldCount
    ++ " +" ++ toString newStart ++ "," ++ toString newCount ++ " @@"

/-- The mutable locals of the `_generate_text_diff` opcode loop; `lastI2` and
`lastJ2` carry the loop variables `i2`, `j2` that the post-loop close reads. -/
structure DiffLoopState where
  hunks : List Hunk
  hunkChanges : List Change
  oldStart : Int
  newStart : Int
  lastI2 : Nat
  lastJ2 : Nat
deriving Repr, DecidableEq

/-- One iteration of the opcode loop in `_generate_text_diff`. -/
def processOpcode (oldLs newLs : List String) (st : DiffLoopState) (op : Opcode) :
    DiffLoopState :=
  let st := { st with lastI2 := op.i2, lastJ2 := op.j2 }
  if op.tag = "equal" ∧ op.i2 - op.i1 > 10 then
    let startCtx := (List.range' op.i1 (min (op.i1 + 3) op.i2 - op.i1)).map (fun i =>
      ({ type := "context", content := oldLs.getD i "",
         oldLine := some (st.oldStart + (i : Int) - (op.i1 : Int)),
         newLine := some (st.newStart + (i : Int) - (op.i1 : Int)) } : Change))
    let hc := st.hunkChanges ++ startCtx
    let hunks :=
      if hc.any (fun c => c.type ≠ "context") then
        let oldCount : Int := (op.i1 : Int) + 3 - st.oldStart
        let newCount : Int := (op.j1 : Int) + 3 - st.newStart
        st.hunks ++ [{ content := hunkHeader st.oldStart oldCount st.newStart newCount,
                       oldStart := st.oldStart, oldLines := oldCount,
                       newStart := st.newStart, newLines := newCount, changes := hc }]
      else st.hunks
    let oldStart' : Int := max 1 ((op.i2 : Int) - 3)
    let newStart' : Int := max 1 ((op.j2 : Int) - 3)
    let s0 := max op.i1 (op.i2 - 3)
    let endCtx := (List.range' s0 (op.i2 - s0)).map (fun i =>
      ({ type := "context", content := oldLs.getD i "",
         oldLine := some (oldStart' + (i : Int) - (s0 : Int)),
         newLine := some (newStart' + (i : Int) - (s0 : Int)) } : Change))
    { hunks := hunks, hunkChanges := endCtx,
      oldStart := oldStart', newStart := newStart',
      lastI2 := op.i2, lastJ2 := op.j2 }
  else
    let dels := (List.range' op.i1 (op.i2 - op.i1)).map (fun i =>
      ({ type := "delete", content := "-" ++ oldLs.getD i "",
         oldLine := some (st.oldStart + (i : Int) - (op.i1 : Int)),
         newLine := none } : Change))
    let ins := (List.range' op.j1 (op.j2 - op.j1)).map (fun j =>
      ({ type := "insert", content := "+" ++ newLs.getD j "",
         oldLine := none,
         newLine := some (st.newStart + (j : Int) - (op.j1 : Int)) } : Change))
    if op.tag = "replace" then
      { st with hunkChanges := st.hunkChanges ++ dels ++ ins }
    else if op.tag = "delete" then
      { st with hunkChanges := st.hunkChanges ++ dels }
    else if op.tag = "insert" then
      { st with hunkChanges := st.hunkChanges ++ ins }
    else if op.tag = "equal" then
      let ctx := (List.range' op.i1 (op.i2 - op.i1)).map (fun i =>
        ({ type := "context", content := " " ++ oldLs.getD i "",
           oldLine := some (st.oldStart + (i : Int) - (op.i1 : Int)),
           newLine := some (st.newStart + (op.j1 : Int) + (i : Int) - (op.i1 : Int)) } : Change))
      { st with hunkChanges := st.hunkChanges ++ ctx }
    else st

/-- `_generate_text_diff` on already-split line lists, with the matcher's
opcode list passed in; returns the `hunks` field of the produced document. -/
def generateTextDiff (oldLs newLs : List String) (opcodes : List Opcode) : List Hunk :=
  let st := opcodes.foldl (processOpcode oldLs newLs)
    { hunks := [], hunkChanges := [], oldStart := 1, newStart := 1, lastI2 := 0, lastJ2 := 0 }
  if st.hunkChanges.isEmpty then st.hunks
  else
    let oldCount : Int := (st.lastI2 : Int) - st.oldStart
    let newCount : Int := (st.lastJ2 : Int) - st.newStart
    st.hunks ++ [{ content := hunkHeader st.oldStart oldCount st.newStart newCount,
                   oldStart := st.oldStart, oldLines := oldCount,
                   newStart := st.newStart, newLines := newCount,
                   changes := st.hunkChanges }]

/-- The `stats` record of `_calculate_diff_stats`. -/
structure DiffStats where
  additions : Nat
  deletions : Nat
  changes : Nat
  total : Nat
deriving Repr, DecidableEq

/-- The per-change branch of `_calculate_diff_stats`, accumulating
`(additions, deletions, changes)`. -/
def countChange (acc : Nat × Nat × Nat) (c : Change) : Nat × Nat × Nat :=
  if c.type = "insert" then (acc.1 + 1, acc.2.1, acc.2.2)
  else if c.type = "delete" then (acc.1, acc.2.1 + 1, acc.2.2)
  else if c.type = "replace" then (acc.1, acc.2.1, acc.2.2 + 1)
  else acc

/-- `DiffProcessor._calculate_diff_stats(diff_data)`: count insert, delete
and replace entries over all hunks; `total` is their sum. -/
def calcDiffStats (hunks : List Hunk) : DiffStats :=
  let counts := hunks.foldl (fun acc h => h.changes.foldl countChange acc)
    ((0, 0, 0) : Nat × Nat × Nat)
  { additions := counts.1, deletions := counts.2.1, changes := counts.2.2,
    total := counts.1 + counts.2.1 + counts.2.2 }

/-- `DiffProcessor._determine_significance(stats)`. -/
def determineSignificance (cfg : Config) (stats : DiffStats) : Nat :=
  if stats.total < cfg.diffSizeThreshold then 1
  else if stats.total < cfg.diffSizeThreshold * 5 then 2
  else 3

/-! ### Artifact store and `DiffProcessor.generate_diff` -/

/-- Combined database plus artifact filesystem (path → file contents). -/
structure SysState where
  db : DbState
  files : List (String × String)
deriving Repr, DecidableEq

/-- Read a file if it exists (`os.path.exists` + `open(...).read()`). -/
def fileRead (files : List (String × String)) (p : String) : Option String :=
  (files.find? (fun f => f.1 == p)).map (fun f => f.2)

/-- `StorageManager.get_diff_path(archive_id, old, new)`:
`<base>/<archive_id>/diffs/<old>_<new>`. -/
def getDiffPath (basePath : String) (aid oldId newId : Nat) : String :=
  basePath ++ "/" ++ toString aid ++ "/diffs/" ++ toString oldId ++ "_" ++ toString newId

/-- `DiffProcessor._get_snapshot_content(snapshot)`: prefer the HTML file,
fall back to the text file, else nothing. -/
def getSnapshotContent (files : List (String × String)) (s : SnapshotRow) : Option String :=
  match s.htmlPath.bind (fileRead files) with
  | some c => some c
  | none =>
    match s.textPath.bind (fileRead files) with
    | some c => some c
    | none => none

/-- Python truthiness of the fetched content (`if not old_content ...`):
missing or empty content is falsy. -/
def contentTruthy : Option String → Bool
  | none => false
  | some s => s ≠ ""

/-- `DiffProcessor._check_diff_exists(old, new)`: the id of the first `diffs`
row matching the ordered pair, if any. -/
def checkDiffExists (db : DbState) (oldId newId : Nat) : Option Nat :=
  (db.diffs.find? (fun d => d.oldSnapshotId == oldId && d.newSnapshotId == newId)).map
    (fun d => d.id)

/-- `db.insert('diffs', ...)`: append the row under a generated id. -/
def diffInsert (db : DbState) (d : DiffRow) : DbState × Nat :=
  let did := db.nextDiffId
  ({ db with diffs := db.diffs ++ [{ d with id := did }], nextDiffId := did + 1 }, did)

/-- `db.update('diffs', {'visual_diff_path': ...}, 'id = ...')`. -/
def DbState.updateDiffVisualPath (db : DbState) (did : Nat) (p : String) : DbState :=
  { db with diffs := db.diffs.map (fun d =>
      if d.id = did then { d with visualDiffPath := some p } else d) }

/-- `DiffProcessor._generate_visual_diff`: load both screenshots, run the
OpenCV pipeline (reified as `render`, yielding the annotated PNG bytes or
nothing on failure), store the result under
`<diff dir>/visual-diff.png`.  A missing screenshot file makes `cv2` raise,
which the surrounding handler turns into no result. -/
def generateVisualDiff (render : String → String → Option String) (basePath : String)
    (files : List (String × String)) (aid oldId newId : Nat)
    (oldShot newShot : String) : List (String × String) × Option String :=
  match fileRead files oldShot, fileRead files newShot with
  | some a, some b =>
    match render a b with
    | some png =>
      let target := getDiffPath basePath aid oldId newId ++ "/visual-diff.png"
      (alistSet files target png, some target)
    | none => (files, none)
  | _, _ => (files, none)

/-- The visual-diff block at the end of `generate_diff`: guarded by the
feature flag and both screenshots being present; on success the diff row
gains `visual_diff_path`, and any failure is swallowed. -/
def visualStep (cfg : Config) (render : String → String → Option String)
    (oldSnap newSnap : SnapshotRow) (files : List (String × String)) (db : DbState)
    (archiveId oldId newId diffId : Nat) : List (String × String) × DbState :=
  if cfg.enableVisualDiff ∧ oldSnap.screenshotPath.isSome
      ∧ newSnap.screenshotPath.isSome then
    match generateVisualDiff render cfg.storagePath files archiveId oldId newId
        (oldSnap.screenshotPath.getD "") (newSnap.screenshotPath.getD "") with
    | (files', some vp) => (files', db.updateDiffVisualPath diffId vp)
    | (files', none) => (files', db)
  else (files, db)

/-- `DiffProcessor.generate_diff(archive_id, old_snapshot_id,
new_snapshot_id)`.  External collaborators are parameters: `splitLines` is
`str.splitlines`, `getOpcodes` the `SequenceMatcher` opcode computation,
`jsonEncode`/`statsEncode` the (deterministic) `json.dumps` serializations,
and `render` the OpenCV visual-diff pipeline.  Returns the updated state and
the diff id (`None` on missing snapshots or unreadable content). -/
def generateDiff (cfg : Config) (splitLines : String → List String)
    (getOpcodes : List String → List String → List Opcode)
    (jsonEncode : List Hunk → String) (statsEncode : DiffStats → String)
    (render : String → String → Option String)
    (st : SysState) (archiveId oldId newId now : Nat) : SysState × Option Nat :=
  match getSnapshotById st.db oldId, getSnapshotById st.db newId with
  | some oldSnap, some newSnap =>
    match checkDiffExists st.db oldId newId with
    | some existingId => (st, some existingId)
    | none =>
      let oldContent := getSnapshotContent st.files oldSnap
      let newContent := getSnapshotContent st.files newSnap
      if contentTruthy oldContent ∧ contentTruthy newContent then
        let oldLs := splitLines (oldContent.getD "")
        let newLs := splitLines (newContent.getD "")
        let hunks := generateTextDiff oldLs newLs (getOpcodes oldLs newLs)
        let diffPath := getDiffPath cfg.storagePath archiveId oldId newId ++ "/diff.json"
        let files := alistSet st.files diffPath (jsonEncode hunks)
        let stats := calcDiffStats hunks
        let significance := determineSignificance cfg stats
        let (db, diffId) := diffInsert st.db
          { id := 0, archiveId := archiveId, oldSnapshotId := oldId,
            newSnapshotId := newId, diffTimestamp := now, diffPath := diffPath,
            statsJson := statsEncode stats, significance := significance,
            visualDiffPath := none }
        let fd := visualStep cfg render oldSnap newSnap files db archiveId oldId newId diffId
        (⟨fd.2, fd.1⟩, some diffId)
      else (st, none)
  | _, _ => (st, none)

/-! ### Spec-side definitions for refinement comparison -/

/-- Follows the spec's words (not the source): the check interval a site's
priority selects — priorities ≤ HIGH_THRESHOLD use HIGH_INTERVAL,
≤ NORMAL_THRESHOLD use NORMAL_INTERVAL, otherwise LOW_INTERVAL. -/
def specIntervalFor (cfg : Config) (priority : Nat) : Nat :=
  if priority ≤ cfg.highPriorityThreshold then cfg.highPriorityInterval
  else if priority ≤ cfg.normalPriorityThreshold then cfg.normalPriorityInterval
  else cfg.lowPriorityInterval

/-- Follows the spec's words (not the source): the site's effective
next-check time has passed at `now` — `last_checked_at` is NULL (due
immediately) or older than the interval its priority tier selects. -/
def specNextCheckPassed (cfg : Config) (now : Nat) (a : ArchiveRow) : Bool :=
  match a.lastCheckedAt with
  | none => true
  | some t => t + specIntervalFor cfg a.priority ≤ now

/-! ### Concrete fixtures used by closed theorems -/

/-- A site with one stored snapshot, about to be captured again. -/
def c1Archive : ArchiveRow := ⟨1, "example.gov", 3, true, none, none⟩

def c1Db : DbState :=
  ⟨[c1Archive], [⟨1, 1, 10, "h1", 200, none, none, none⟩], [], [], 2, 1, 1⟩

/-- A successful capture whose content hash differs from the stored one. -/
def c1Result : CrawlResult :=
  { success := true, contentHash := some "h2", statusCode := some 200 }

/-- Two stored snapshots of one site with readable HTML artifacts. -/
def c5OldSnap : SnapshotRow := ⟨1, 1, 10, "h1", 200, some "/f/old.html", none, none⟩

def c5NewSnap : SnapshotRow := ⟨2, 1, 20, "h2", 200, some "/f/new.html", none, none⟩

def c5Db : DbState := ⟨[], [c5OldSnap, c5NewSnap], [], [], 3, 1, 1⟩

def c5St : SysState :=
  ⟨c5Db, [("/f/old.html", "a\nb"), ("/f/new.html", "a\nc")]⟩

/-- An enabled site that was checked at time 100. -/
def c2Archive : ArchiveRow := ⟨1, "example.gov", 3, true, some 100, none⟩

def c2Db : DbState := ⟨[c2Archive], [], [], [], 1, 1, 1⟩

/-- A 503 response. -/
def c3Resp : HttpResponse := ⟨503, "Service Unavailable", "https://down.gov"⟩

def c3Archive : ArchiveRow := ⟨2, "down.gov", 3, true, none, none⟩

def c3Db : DbState := ⟨[c3Archive], [], [], [], 1, 1, 1⟩

def c4Archive : ArchiveRow := ⟨3, "site.gov", 3, true, none, none⟩

def c4Db : DbState := ⟨[c4Archive], [], [], [], 1, 1, 1⟩

/-! ### Helper predicates -/

/-- A change entry's type is one of the three the algorithm emits. -/
def okChange (c : Change) : Prop :=
  c.type = "context" ∨ c.type = "delete" ∨ c.type = "insert"

/-- Every change accumulated so far — in closed hunks and in the open
buffer — has an allowed type. -/
def okState (st : DiffLoopState) : Prop :=
  (∀ h ∈ st.hunks, ∀ c ∈ h.changes, okChange c) ∧ ∀ c ∈ st.hunkChanges, okChange c

/-- Number of `diffs` rows for an ordered snapshot pair. -/
def diffPairCount (db : DbState) (o n : Nat) : Nat :=
  db.diffs.countP (fun d => d.oldSnapshotId == o && d.newSnapshotId == n)

/-- A queue operation performed after enqueue: `fail_job` or `complete_job`
on some job of some queue. -/
inductive QueueOp where
  | fail (queueName jobId : String) (error : Option String) (retry : Bool)
      (maxRetries now : Nat)
  | complete (queueName jobId : String) (now : Nat)

def applyQueueOp (st : RedisState) : QueueOp → RedisState
  | .fail q j e r m n => failJob st q j e r m n
  | .complete q j n => completeJob st q j n

def applyQueueOps (st : RedisState) : List QueueOp → RedisState
  | [] => st
  | op :: ops => applyQueueOps (applyQueueOp st op) ops

/-! ## Theorems -/

theorem alistGet_alistSet_self (l : List (String × α)) (k : String) (v d : α) :
    alistGet (alistSet l k v) k d = v := by
  induction l with
  | nil => simp [alistGet, alistSet]
  | cons p rest ih =>
    by_cases h : p.1 = k
    · simp [alistGet, alistSet, h]
    · simpa [alistGet, alistSet, h] using ih

theorem alistGet_alistSet_ne (l : List (String × α)) (k k' : String) (v d : α)
    (h : k ≠ k') : alistGet (alistSet l k v) k' d = alistGet l k' d := by
  induction l with
  | nil => simp [alistGet, alistSet, h]
  | cons p rest ih =>
    by_cases hp : p.1 = k
    · simp [alistGet, alistSet, hp, h, Ne.symm h]
    · rw [show alistSet (p :: rest) k v = p :: alistSet rest k v from by simp [alistSet, hp]]
      by_cases hp' : p.1 = k'
      · simp [alistGet, hp']
      · simpa [alistGet, hp'] using ih

/-- C7: significance classification is a total function of `stats.total`
alone; with a positive threshold T the tiers are `total < T` ↦ 1,
`T ≤ total < 5T` ↦ 2, `5T ≤ total` ↦ 3, and in particular `total = T - 1`
classifies as 1 and `total = T` as 2. -/
theorem significance_total_function (cfg : Config) (hT : 0 < cfg.diffSizeThreshold) :
    (∀ s s' : DiffStats, s.total = s'.total →
      determineSignificance cfg s = determineSignificance cfg s')
  ∧ (∀ s : DiffStats, s.total < cfg.diffSizeThreshold →
      determineSignificance cfg s = 1)
  ∧ (∀ s : DiffStats, cfg.diffSizeThreshold ≤ s.total →
      s.total < cfg.diffSizeThreshold * 5 → determineSignificance cfg s = 2)
  ∧ (∀ s : DiffStats, cfg.diffSizeThreshold * 5 ≤ s.total →
      determineSignificance cfg s = 3)
  ∧ (∀ s : DiffStats, s.total = cfg.diffSizeThreshold - 1 →
      determineSignificance cfg s = 1)
  ∧ (∀ s : DiffStats, s.total = cfg.diffSizeThreshold →
      determineSignificance cfg s = 2) := by
  refine ⟨?_, ?_, ?_, ?_, ?_, ?_⟩
  · intro s s' h
    simp only [determineSignificance, h]
  · intro s h
    simp only [determineSignificance, if_pos h]
  · intro s h1 h2
    rw [determineSignificance, if_neg (by omega), if_pos h2]
  · intro s h
    rw [determineSignificance, if_neg (by omega), if_neg (by omega)]
  · intro s h
    rw [determineSignificance, if_pos (by omega)]
  · intro s h
    rw [determineSignificance, if_neg (by omega), if_pos (by omega)]

/-- Witness for C7 at the default threshold 10: totals 9 and 10 land in
tiers 1 and 2. -/
theorem significance_total_function_witness :
    determineSignificance defaultConfig ⟨0, 0, 0, 9⟩ = 1
  ∧ determineSignificance defaultConfig ⟨0, 0, 0, 10⟩ = 2 :=
  ⟨(significance_total_function defaultConfig (by decide)).2.2.2.2.1 ⟨0, 0, 0, 9⟩ (by decide),
   (significance_total_function defaultConfig (by decide)).2.2.2.2.2 ⟨0, 0, 0, 10⟩ (by decide)⟩

@[simp] theorem setJob_queues (st : RedisState) (k : String) (j : JobHash) :
    (st.setJob k j).queues = st.queues := rfl

@[simp] theorem setJob_processing (st : RedisState) (k : String) (j : JobHash) :
    (st.setJob k j).processing = st.processing := rfl

@[simp] theorem setJob_failedStats (st : RedisState) (k : String) (j : JobHash) :
    (st.setJob k j).failedStats = st.failedStats := rfl

@[simp] theorem zadd_jobs (st : RedisState) (q m : String) (s : Nat) :
    (st.zadd q m s).jobs = st.jobs := rfl

@[simp] theorem zadd_processing (st : RedisState) (q m : String) (s : Nat) :
    (st.zadd q m s).processing = st.processing := rfl

@[simp] theorem zadd_failedStats (st : RedisState) (q m : String) (s : Nat) :
    (st.zadd q m s).failedStats = st.failedStats := rfl

@[simp] theorem srem_jobs (st : RedisState) (q m : String) :
    (st.srem q m).jobs = st.jobs := rfl

@[simp] theorem srem_queues (st : RedisState) (q m : String) :
    (st.srem q m).queues = st.queues := rfl

@[simp] theorem srem_failedStats (st : RedisState) (q m : String) :
    (st.srem q m).failedStats = st.failedStats := rfl

@[simp] theorem incrFailed_jobs (st : RedisState) (q : String) :
    (st.incrFailed q).jobs = st.jobs := rfl

@[simp] theorem incrFailed_queues (st : RedisState) (q : String) :
    (st.incrFailed q).queues = st.queues := rfl

@[simp] theorem incrFailed_processing (st : RedisState) (q : String) :
    (st.incrFailed q).processing = st.processing := rfl

@[simp] theorem job_setJob_self (st : RedisState) (k : String) (j : JobHash) :
    (st.setJob k j).job k = j := by
  simp [RedisState.job, RedisState.setJob, alistGet_alistSet_self]

theorem mem_processing_srem (st : RedisState) (q m : String) :
    m ∉ alistGet (st.srem q m).processing q [] := by
  simp [RedisState.srem, alistGet_alistSet_self, List.mem_filter]

theorem alistSet_alistSet_self (l : List (String × α)) (k : String) (v w : α) :
    alistSet (alistSet l k v) k w = alistSet l k w := by
  induction l with
  | nil => simp [alistSet]
  | cons p rest ih =>
    by_cases h : p.1 = k
    · simp [alistSet, h]
    · simp [alistSet, h, ih]

/-- Evaluation of `fail_job` when the retry branch is taken. -/
theorem failJob_retry_eq (st : RedisState) (q jobId : String) (error : Option String)
    (retry : Bool) (maxRetries now : Nat)
    (hc : retry = true ∧ (st.job jobId).retries < maxRetries) :
    failJob st q jobId error retry maxRetries now =
      { jobs := alistSet st.jobs jobId
          { (st.job jobId) with
            retries := (st.job jobId).retries + 1,
            lastError := some (error.getD "Unknown error"), status := "pending" },
        queues := alistSet st.queues q
          ((alistGet st.queues q []).filter (fun p => p.1 ≠ jobId)
            ++ [(jobId, (st.job jobId).priority + 1)]),
        processing := alistSet st.processing q
          ((alistGet st.processing q []).filter (fun m => m ≠ jobId)),
        completedStats := st.completedStats,
        failedStats := st.failedStats } := by
  simp only [failJob, if_pos hc, RedisState.srem, RedisState.zadd, setJob_queues,
    setJob_processing, job_setJob_self, zadd_jobs]
  simp [RedisState.setJob, RedisState.job, alistSet_alistSet_self, alistGet_alistSet_self]

/-- Evaluation of `fail_job` when the job is marked failed. -/
theorem failJob_fail_eq (st : RedisState) (q jobId : String) (error : Option String)
    (retry : Bool) (maxRetries now : Nat)
    (hc : ¬(retry = true ∧ (st.job jobId).retries < maxRetries)) :
    failJob st q jobId error retry maxRetries now =
      { jobs := alistSet st.jobs jobId
          { (st.job jobId) with
            status := "failed", failedAt := some now,
            errorMsg := match error with
              | some e => some e
              | none => (st.job jobId).errorMsg },
        queues := st.queues,
        processing := alistSet st.processing q
          ((alistGet st.processing q []).filter (fun m => m ≠ jobId)),
        completedStats := st.completedStats,
        failedStats := alistSet st.failedStats q (alistGet st.failedStats q 0 + 1) } := by
  simp only [failJob, if_neg hc, RedisState.srem, RedisState.incrFailed, setJob_queues,
    setJob_processing, setJob_failedStats, job_setJob_self]
  simp [RedisState.setJob, RedisState.job, alistSet_alistSet_self, alistGet_alistSet_self]

/-- C6: `fail_job` increments the retry counter, re-adds the job with score
`priority + 1` and status `pending`, and leaves the failed counter alone
exactly when a retry is requested and the current counter is strictly below
`max_retries`; otherwise (including `retries = max_retries`) it marks the
job failed and increments the failed counter; in both branches the job is
removed from the processing set. -/
theorem fail_job_semantics (st : RedisState) (q jobId : String) (error : Option String)
    (retry : Bool) (maxRetries now : Nat) :
    (retry = true → (st.job jobId).retries < maxRetries →
        ((failJob st q jobId error retry maxRetries now).job jobId).retries
          = (st.job jobId).retries + 1
      ∧ ((failJob st q jobId error retry maxRetries now).job jobId).status = "pending"
      ∧ alistGet (failJob st q jobId error retry maxRetries now).queues q []
          = (alistGet st.queues q []).filter (fun e => e.1 ≠ jobId)
            ++ [(jobId, (st.job jobId).priority + 1)]
      ∧ (failJob st q jobId error retry maxRetries now).failedStats = st.failedStats)
  ∧ (¬(retry = true ∧ (st.job jobId).retries < maxRetries) →
        ((failJob st q jobId error retry maxRetries now).job jobId).status = "failed"
      ∧ alistGet (failJob st q jobId error retry maxRetries now).failedStats q 0
          = alistGet st.failedStats q 0 + 1)
  ∧ jobId ∉ alistGet (failJob st q jobId error retry maxRetries now).processing q [] := by
  by_cases hc : retry = true ∧ (st.job jobId).retries < maxRetries
  · rw [failJob_retry_eq st q jobId error retry maxRetries now hc]
    refine ⟨fun _ _ => ?_, fun hn => absurd hc hn, ?_⟩
    · simp [RedisState.job, alistGet_alistSet_self]
    · simp [alistGet_alistSet_self, List.mem_filter]
  · rw [failJob_fail_eq st q jobId error retry maxRetries now hc]
    refine ⟨fun h1 h2 => absurd ⟨h1, h2⟩ hc, fun _ => ?_, ?_⟩
    · simp [RedisState.job, alistGet_alistSet_self]
    · simp [alistGet_alistSet_self, List.mem_filter]

/-- Witness for C6: a freshly enqueued job (retries 0) failed with retry
under `max_retries = 3` is requeued as pending with retries 1; the same
state failed without retry becomes failed. -/
theorem fail_job_semantics_witness :
    (((failJob (enqueueJob RedisState.empty "archive:crawl" "1" "d" 3 100).1
        "archive:crawl" "job:100:1" (some "boom") true 3 101).job "job:100:1").retries = 1
    ∧ ((failJob (enqueueJob RedisState.empty "archive:crawl" "1" "d" 3 100).1
        "archive:crawl" "job:100:1" (some "boom") true 3 101).job "job:100:1").status
        = "pending")
  ∧ ((failJob (enqueueJob RedisState.empty "archive:crawl" "1" "d" 3 100).1
        "archive:crawl" "job:100:1" (some "boom") false 3 101).job "job:100:1").status
        = "failed" := by
  have h1 := fail_job_semantics (enqueueJob RedisState.empty "archive:crawl" "1" "d" 3 100).1
    "archive:crawl" "job:100:1" (some "boom") true 3 101
  have h2 := fail_job_semantics (enqueueJob RedisState.empty "archive:crawl" "1" "d" 3 100).1
    "archive:crawl" "job:100:1" (some "boom") false 3 101
  exact ⟨⟨(h1.1 rfl (by decide)).1, (h1.1 rfl (by decide)).2.1⟩,
    (h2.2.1 (by decide)).1⟩

@[simp] theorem incrCompleted_jobs (st : RedisState) (q : String) :
    (st.incrCompleted q).jobs = st.jobs := rfl

@[simp] theorem job_srem (st : RedisState) (q m j : String) :
    (st.srem q m).job j = st.job j := rfl

@[simp] theorem job_incrCompleted (st : RedisState) (q : String) (j : String) :
    (st.incrCompleted q).job j = st.job j := rfl

@[simp] theorem job_zadd (st : RedisState) (q m : String) (s : Nat) (j : String) :
    (st.zadd q m s).job j = st.job j := rfl

theorem job_setJob_ne (st : RedisState) (k j : String) (h : k ≠ j) (jh : JobHash) :
    (st.setJob k jh).job j = st.job j := by
  simp [RedisState.job, RedisState.setJob, alistGet_alistSet_ne _ _ _ _ _ h]

theorem priority_applyQueueOp (st : RedisState) (op : QueueOp) (j : String) :
    ((applyQueueOp st op).job j).priority = (st.job j).priority := by
  cases op with
  | fail qn k e r m n =>
    by_cases hc : r = true ∧ (st.job k).retries < m
    · rw [show applyQueueOp st (QueueOp.fail qn k e r m n) = failJob st qn k e r m n from rfl,
        failJob_retry_eq st qn k e r m n hc]
      by_cases hj : k = j
      · subst hj; simp [RedisState.job, alistGet_alistSet_self]
      · simp [RedisState.job, alistGet_alistSet_ne _ _ _ _ _ hj]
    · rw [show applyQueueOp st (QueueOp.fail qn k e r m n) = failJob st qn k e r m n from rfl,
        failJob_fail_eq st qn k e r m n hc]
      by_cases hj : k = j
      · subst hj; simp [RedisState.job, alistGet_alistSet_self]
      · simp [RedisState.job, alistGet_alistSet_ne _ _ _ _ _ hj]
  | complete qn k n =>
    by_cases hj : k = j
    · subst hj
      simp [applyQueueOp, completeJob, RedisState.job, RedisState.setJob,
        RedisState.srem, RedisState.incrCompleted, alistGet_alistSet_self]
    · simp [applyQueueOp, completeJob, job_setJob_ne _ _ _ hj]

theorem priority_applyQueueOps (st : RedisState) (ops : List QueueOp) (j : String) :
    ((applyQueueOps st ops).job j).priority = (st.job j).priority := by
  induction ops generalizing st with
  | nil => rfl
  | cons op ops ih =>
    rw [show applyQueueOps st (op :: ops) = applyQueueOps (applyQueueOp st op) ops from rfl,
      ih, priority_applyQueueOp]

theorem failJob_requeue_score (st : RedisState) (qn jobId : String) (err : Option String)
    (maxRetries t : Nat) (h : (st.job jobId).retries < maxRetries) :
    (jobId, (st.job jobId).priority + 1) ∈
      alistGet (failJob st qn jobId err true maxRetries t).queues qn [] := by
  rw [failJob_retry_eq st qn jobId err true maxRetries t ⟨rfl, h⟩]
  simp [alistGet_alistSet_self]

/-- C10: the job hash's `priority` field is written once by `enqueue_job` and
is preserved by any sequence of `fail_job` / `complete_job` calls; hence
every retry requeue performed by `fail_job` re-enters the queue at score
`original priority + 1`, without compounding. -/
theorem retry_priority_stable (st : RedisState) (q dataId dataJson : String)
    (p now : Nat) (ops : List QueueOp) :
    ((enqueueJob st q dataId dataJson p now).1.job
        (enqueueJob st q dataId dataJson p now).2).priority = p
  ∧ ((applyQueueOps (enqueueJob st q dataId dataJson p now).1 ops).job
        (enqueueJob st q dataId dataJson p now).2).priority = p
  ∧ (∀ qn err maxRetries t,
      ((applyQueueOps (enqueueJob st q dataId dataJson p now).1 ops).job
          (enqueueJob st q dataId dataJson p now).2).retries < maxRetries →
      ((enqueueJob st q dataId dataJson p now).2, p + 1) ∈
        alistGet (failJob (applyQueueOps (enqueueJob st q dataId dataJson p now).1 ops)
          qn (enqueueJob st q dataId dataJson p now).2 err true maxRetries t).queues qn []) := by
  have h1 : ((enqueueJob st q dataId dataJson p now).1.job
      (enqueueJob st q dataId dataJson p now).2).priority = p := by
    simp [enqueueJob, RedisState.zadd, RedisState.job, RedisState.setJob,
      alistGet_alistSet_self]
  have h2 := priority_applyQueueOps (enqueueJob st q dataId dataJson p now).1 ops
    (enqueueJob st q dataId dataJson p now).2
  refine ⟨h1, h2.trans h1, fun qn err maxRetries t hr => ?_⟩
  have h3 := failJob_requeue_score
    (applyQueueOps (enqueueJob st q dataId dataJson p now).1 ops) qn
    (enqueueJob st q dataId dataJson p now).2 err maxRetries t hr
  rwa [h2.trans h1] at h3

/-- Witness for C10: a job enqueued at priority 2, failed once with retry,
still has stored priority 2 and a second retry requeues it at score 3. -/
theorem retry_priority_stable_witness :
    ((applyQueueOps (enqueueJob RedisState.empty "archive:crawl" "7" "d" 2 50).1
        [QueueOp.fail "archive:crawl"
          (enqueueJob RedisState.empty "archive:crawl" "7" "d" 2 50).2 none true 5 60]).job
        (enqueueJob RedisState.empty "archive:crawl" "7" "d" 2 50).2).priority = 2
  ∧ ((enqueueJob RedisState.empty "archive:crawl" "7" "d" 2 50).2, 2 + 1) ∈
      alistGet (failJob
        (applyQueueOps (enqueueJob RedisState.empty "archive:crawl" "7" "d" 2 50).1
          [QueueOp.fail "archive:crawl"
            (enqueueJob RedisState.empty "archive:crawl" "7" "d" 2 50).2 none true 5 60])
        "archive:crawl" (enqueueJob RedisState.empty "archive:crawl" "7" "d" 2 50).2
        none true 5 70).queues "archive:crawl" [] := by
  have h := retry_priority_stable RedisState.empty "archive:crawl" "7" "d" 2 50
    [QueueOp.fail "archive:crawl"
      (enqueueJob RedisState.empty "archive:crawl" "7" "d" 2 50).2 none true 5 60]
  exact ⟨h.2.1, h.2.2 "archive:crawl" none 5 70 (by decide)⟩

theorem okChange_map_mk (l : List Nat) (f : Nat → Change)
    (hf : ∀ i, okChange (f i)) : ∀ c ∈ l.map f, okChange c := by
  intro c hc
  obtain ⟨i, _, rfl⟩ := List.mem_map.mp hc
  exact hf i

theorem okState_processOpcode (oldLs newLs : List String) (st : DiffLoopState)
    (op : Opcode) (h : okState st) : okState (processOpcode oldLs newLs st op) := by
  obtain ⟨hh, hb⟩ := h
  simp only [processOpcode]
  split_ifs
  all_goals constructor
  all_goals
    first
    | exact hh
    | exact hb
    | (intro c hc
       exact okChange_map_mk _ _ (fun i => Or.inl rfl) c hc)
    | (intro c hc
       rcases List.mem_append.mp hc with hc1 | hc1
       · first
         | exact hb c hc1
         | (rcases List.mem_append.mp hc1 with hc2 | hc2
            · exact hb c hc2
            · exact okChange_map_mk _ _ (fun i => Or.inr (Or.inl rfl)) c hc2)
       · first
         | exact okChange_map_mk _ _ (fun i => Or.inl rfl) c hc1
         | exact okChange_map_mk _ _ (fun i => Or.inr (Or.inl rfl)) c hc1
         | exact okChange_map_mk _ _ (fun i => Or.inr (Or.inr rfl)) c hc1)
    | (intro hk hkm
       rcases List.mem_append.mp hkm with hm | hm
       · exact hh hk hm
       · cases List.mem_singleton.mp hm
         intro c hc
         rcases List.mem_append.mp hc with hc1 | hc1
         · exact hb c hc1
         · exact okChange_map_mk _ _ (fun i => Or.inl rfl) c hc1)

theorem okState_foldl (oldLs newLs : List String) (ops : List Opcode) (st : DiffLoopState)
    (h : okState st) : okState (ops.foldl (processOpcode oldLs newLs) st) := by
  induction ops generalizing st with
  | nil => exact h
  | cons op ops ih => exact ih _ (okState_processOpcode oldLs newLs st op h)

theorem okChanges_generateTextDiff (oldLs newLs : List String) (ops : List Opcode) :
    ∀ hk ∈ generateTextDiff oldLs newLs ops, ∀ c ∈ hk.changes, okChange c := by
  have hst := okState_foldl oldLs newLs ops
    { hunks := [], hunkChanges := [], oldStart := 1, newStart := 1, lastI2 := 0, lastJ2 := 0 }
    (by exact ⟨by simp, by simp⟩)
  intro hk hkm
  simp only [generateTextDiff] at hkm
  split_ifs at hkm
  · exact hst.1 hk hkm
  · rcases List.mem_append.mp hkm with hm | hm
    · exact hst.1 hk hm
    · cases List.mem_singleton.mp hm
      exact hst.2

theorem countChange_changes_eq (acc : Nat × Nat × Nat) (c : Change)
    (hc : c.type ≠ "replace") : (countChange acc c).2.2 = acc.2.2 := by
  unfold countChange
  split_ifs <;> rfl

theorem foldl_countChange_changes (l : List Change) (acc : Nat × Nat × Nat)
    (h : ∀ c ∈ l, c.type ≠ "replace") : (l.foldl countChange acc).2.2 = acc.2.2 := by
  induction l generalizing acc with
  | nil => rfl
  | cons c cs ih =>
    rw [List.foldl_cons, ih _ (fun x hx => h x (List.mem_cons_of_mem _ hx)),
      countChange_changes_eq _ _ (h c (List.mem_cons_self _ _))]

theorem foldl_hunks_changes (hs : List Hunk) (acc : Nat × Nat × Nat)
    (h : ∀ hk ∈ hs, ∀ c ∈ hk.changes, c.type ≠ "replace") :
    (hs.foldl (fun acc hk => hk.changes.foldl countChange acc) acc).2.2 = acc.2.2 := by
  induction hs generalizing acc with
  | nil => rfl
  | cons hk hs ih =>
    rw [List.foldl_cons, ih _ (fun x hx => h x (List.mem_cons_of_mem _ hx)),
      foldl_countChange_changes _ _ (h hk (List.mem_cons_self _ _))]

/-- C9: every change entry the textual diff emits has type `context`,
`delete` or `insert` (a `replace` opcode becomes paired delete and insert
entries, never a `replace` change), so the computed stats satisfy
`changes = 0` and `total = additions + deletions`. -/
theorem diff_change_types_and_stats (oldLs newLs : List String) (ops : List Opcode) :
    (∀ hk ∈ generateTextDiff oldLs newLs ops, ∀ c ∈ hk.changes,
        c.type = "context" ∨ c.type = "delete" ∨ c.type = "insert")
  ∧ (calcDiffStats (generateTextDiff oldLs newLs ops)).changes = 0
  ∧ (calcDiffStats (generateTextDiff oldLs newLs ops)).total =
      (calcDiffStats (generateTextDiff oldLs newLs ops)).additions
        + (calcDiffStats (generateTextDiff oldLs newLs ops)).deletions := by
  have hok := okChanges_generateTextDiff oldLs newLs ops
  have hnr : ∀ hk ∈ generateTextDiff oldLs newLs ops, ∀ c ∈ hk.changes,
      c.type ≠ "replace" := by
    intro hk hm c cm
    rcases hok hk hm c cm with h | h | h <;> simp [h]
  have hch : (calcDiffStats (generateTextDiff oldLs newLs ops)).changes = 0 := by
    simp only [calcDiffStats]
    exact foldl_hunks_changes _ _ hnr
  have htot : (calcDiffStats (generateTextDiff oldLs newLs ops)).total =
      (calcDiffStats (generateTextDiff oldLs newLs ops)).additions
        + (calcDiffStats (generateTextDiff oldLs newLs ops)).deletions
        + (calcDiffStats (generateTextDiff oldLs newLs ops)).changes := rfl
  exact ⟨hok, hch, by omega⟩

/-- Witness for C9 on a concrete replace opcode: no `replace` change is
counted. -/
theorem diff_change_types_and_stats_witness :
    (calcDiffStats (generateTextDiff ["a"] ["b"] [⟨"replace", 0, 1, 0, 1⟩])).changes = 0
  ∧ (calcDiffStats (generateTextDiff ["a"] ["b"] [⟨"replace", 0, 1, 0, 1⟩])).total
      = (calcDiffStats (generateTextDiff ["a"] ["b"] [⟨"replace", 0, 1, 0, 1⟩])).additions
        + (calcDiffStats (generateTextDiff ["a"] ["b"] [⟨"replace", 0, 1, 0, 1⟩])).deletions :=
  ⟨(diff_change_types_and_stats ["a"] ["b"] [⟨"replace", 0, 1, 0, 1⟩]).2.1,
   (diff_change_types_and_stats ["a"] ["b"] [⟨"replace", 0, 1, 0, 1⟩]).2.2⟩

/-- Evaluation of the opcode loop body on a small (≤ 10 lines) `equal`
opcode: the whole region is appended to the open hunk as context. -/
theorem processOpcode_equal_small (oldLs newLs : List String) (st : DiffLoopState)
    (i1 i2 j1 j2 : Nat) (hsmall : i2 - i1 ≤ 10) :
    processOpcode oldLs newLs st ⟨"equal", i1, i2, j1, j2⟩ =
      { st with
        hunkChanges := st.hunkChanges ++ (List.range' i1 (i2 - i1)).map (fun i =>
          ({ type := "context", content := " " ++ oldLs.getD i "",
             oldLine := some (st.oldStart + (i : Int) - (i1 : Int)),
             newLine := some (st.newStart + (j1 : Int) + (i : Int) - (i1 : Int)) } : Change)),
        lastI2 := i2, lastJ2 := j2 } := by
  simp only [processOpcode]
  split_ifs
  all_goals
    first
    | rfl
    | exact absurd ‹"equal" = "replace"› (by decide)
    | exact absurd ‹"equal" = "delete"› (by decide)
    | exact absurd ‹"equal" = "insert"› (by decide)
    | (exfalso
       obtain ⟨-, hbig⟩ := ‹True ∧ i2 - i1 > 10›
       omega)

/-- Evaluation of the opcode loop body on a large (≥ 11 lines) `equal`
opcode: append 3 trailing-context lines, close the hunk when it holds a
non-context change, and restart the buffer with the 3 leading-context
lines. -/
theorem processOpcode_equal_big (oldLs newLs : List String) (st : DiffLoopState)
    (i1 i2 j1 j2 : Nat) (hbig : 10 < i2 - i1) :
    processOpcode oldLs newLs st ⟨"equal", i1, i2, j1, j2⟩ =
      { hunks :=
          if (st.hunkChanges ++ (List.range' i1 (min (i1 + 3) i2 - i1)).map (fun i =>
              ({ type := "context", content := oldLs.getD i "",
                 oldLine := some (st.oldStart + (i : Int) - (i1 : Int)),
                 newLine := some (st.newStart + (i : Int) - (i1 : Int)) } : Change))).any
              (fun c => c.type ≠ "context") then
            st.hunks ++ [{
              content := hunkHeader st.oldStart ((i1 : Int) + 3 - st.oldStart)
                st.newStart ((j1 : Int) + 3 - st.newStart),
              oldStart := st.oldStart, oldLines := (i1 : Int) + 3 - st.oldStart,
              newStart := st.newStart, newLines := (j1 : Int) + 3 - st.newStart,
              changes := st.hunkChanges ++ (List.range' i1 (min (i1 + 3) i2 - i1)).map (fun i =>
                ({ type := "context", content := oldLs.getD i "",
                   oldLine := some (st.oldStart + (i : Int) - (i1 : Int)),
                   newLine := some (st.newStart + (i : Int) - (i1 : Int)) } : Change)) }]
          else st.hunks,
        hunkChanges := (List.range' (max i1 (i2 - 3)) (i2 - max i1 (i2 - 3))).map (fun i =>
          ({ type := "context", content := oldLs.getD i "",
             oldLine := some (max 1 ((i2 : Int) - 3) + (i : Int) - ((max i1 (i2 - 3) : Nat) : Int)),
             newLine := some (max 1 ((j2 : Int) - 3) + (i : Int) - ((max i1 (i2 - 3) : Nat) : Int)) } : Change)),
        oldStart := max 1 ((i2 : Int) - 3), newStart := max 1 ((j2 : Int) - 3),
        lastI2 := i2, lastJ2 := j2 } := by
  simp only [processOpcode]
  rw [if_pos ⟨trivial, hbig⟩]

/-- C8: an `equal` opcode region of at most 10 lines is emitted whole into
the current hunk and nothing is closed; a region of 11 or more lines splits:
the buffer gets exactly 3 trailing-context lines appended, the hunk is
closed exactly when it contains a non-context change, and the next hunk
opens with exactly 3 leading-context lines. -/
theorem equal_region_hunk_split (oldLs newLs : List String) (st : DiffLoopState)
    (op : Opcode) (htag : op.tag = "equal") (hle : op.i1 ≤ op.i2) :
    (op.i2 - op.i1 ≤ 10 →
      (processOpcode oldLs newLs st op).hunks = st.hunks
      ∧ ∃ ctx, (processOpcode oldLs newLs st op).hunkChanges = st.hunkChanges ++ ctx
          ∧ ctx.length = op.i2 - op.i1 ∧ ∀ c ∈ ctx, c.type = "context")
  ∧ (10 < op.i2 - op.i1 →
      ((processOpcode oldLs newLs st op).hunkChanges.length = 3
        ∧ ∀ c ∈ (processOpcode oldLs newLs st op).hunkChanges, c.type = "context")
      ∧ ∃ trail : List Change, trail.length = 3 ∧ (∀ c ∈ trail, c.type = "context")
          ∧ ((∀ c ∈ st.hunkChanges, c.type = "context") →
              (processOpcode oldLs newLs st op).hunks = st.hunks)
          ∧ ((∃ c ∈ st.hunkChanges, c.type ≠ "context") →
              ∃ hk, (processOpcode oldLs newLs st op).hunks = st.hunks ++ [hk]
                ∧ hk.changes = st.hunkChanges ++ trail)) := by
  obtain ⟨t, i1, i2, j1, j2⟩ := op
  simp only at htag hle ⊢
  subst htag
  constructor
  · intro hsmall
    rw [processOpcode_equal_small oldLs newLs st i1 i2 j1 j2 hsmall]
    refine ⟨rfl, _, rfl, ?_, ?_⟩
    · simp
    · intro c hc
      obtain ⟨i, _, rfl⟩ := List.mem_map.mp hc
      rfl
  · intro hbig
    rw [processOpcode_equal_big oldLs newLs st i1 i2 j1 j2 hbig]
    have hmin : min (i1 + 3) i2 - i1 = 3 := by omega
    have hmax : i2 - max i1 (i2 - 3) = 3 := by omega
    refine ⟨⟨by simp [hmax], ?_⟩, ?_⟩
    · intro c hc
      obtain ⟨i, _, rfl⟩ := List.mem_map.mp hc
      rfl
    · refine ⟨(List.range' i1 (min (i1 + 3) i2 - i1)).map (fun i =>
          ({ type := "context", content := oldLs.getD i "",
             oldLine := some (st.oldStart + (i : Int) - (i1 : Int)),
             newLine := some (st.newStart + (i : Int) - (i1 : Int)) } : Change)),
        by simp [hmin], ?_, ?_, ?_⟩
      · intro c hc
        obtain ⟨i, _, rfl⟩ := List.mem_map.mp hc
        rfl
      · intro hall
        rw [if_neg]
        simp only [List.any_append, Bool.or_eq_true, not_or]
        constructor
        · simp only [List.any_eq_true, not_exists]
          intro c
          rw [not_and]
          intro hc
          simp [hall c hc]
        · simp only [List.any_eq_true, not_exists]
          intro c
          rw [not_and]
          intro hc
          obtain ⟨i, _, rfl⟩ := List.mem_map.mp hc
          simp
      · intro ⟨c, hc, hne⟩
        rw [if_pos]
        · exact ⟨_, rfl, rfl⟩
        · simp only [List.any_append, Bool.or_eq_true]
          left
          simp only [List.any_eq_true]
          exact ⟨c, hc, by simpa using hne⟩

/-- Witness for C8: from the initial loop state, an equal run of 10 lines is
kept whole while a run of 11 lines leaves a 3-line context buffer. -/
theorem equal_region_hunk_split_witness :
    (processOpcode [] [] ⟨[], [], 1, 1, 0, 0⟩ ⟨"equal", 0, 10, 0, 10⟩).hunkChanges.length = 10
  ∧ (processOpcode [] [] ⟨[], [], 1, 1, 0, 0⟩ ⟨"equal", 0, 11, 0, 11⟩).hunkChanges.length = 3 := by
  have h10 := equal_region_hunk_split [] [] ⟨[], [], 1, 1, 0, 0⟩ ⟨"equal", 0, 10, 0, 10⟩
    rfl (by decide)
  have h11 := equal_region_hunk_split [] [] ⟨[], [], 1, 1, 0, 0⟩ ⟨"equal", 0, 11, 0, 11⟩
    rfl (by decide)
  constructor
  · obtain ⟨-, ctx, heq, hlen, -⟩ := h10.1 (by decide)
    simp [heq, hlen]
  · exact (h11.2 (by decide)).1.1

theorem archiveKeyLe_total (a b : ArchiveRow) :
    archiveKeyLe a b = true ∨ archiveKeyLe b a = true := by
  unfold archiveKeyLe
  by_cases h : a.priority = b.priority
  · rw [if_pos h, if_pos h.symm]
    cases a.lastCheckedAt <;> cases b.lastCheckedAt <;> simp <;> omega
  · rw [if_neg h, if_neg (Ne.symm h)]
    simp only [decide_eq_true_eq]
    omega

theorem archiveKeyLe_trans (a b c : ArchiveRow) (hab : archiveKeyLe a b = true)
    (hbc : archiveKeyLe b c = true) : archiveKeyLe a c = true := by
  unfold archiveKeyLe at hab hbc ⊢
  by_cases h1 : a.priority = b.priority <;> by_cases h2 : b.priority = c.priority
  · rw [if_pos h1] at hab
    rw [if_pos h2] at hbc
    rw [if_pos (h1.trans h2)]
    rcases ha : a.lastCheckedAt with _ | x <;>
      rcases hb : b.lastCheckedAt with _ | y <;>
        rcases hc : c.lastCheckedAt with _ | z <;>
          simp_all <;> omega
  · rw [if_neg h2] at hbc
    simp only [decide_eq_true_eq] at hbc
    rw [if_neg (by omega)]
    simp only [decide_eq_true_eq]
    omega
  · rw [if_neg h1] at hab
    simp only [decide_eq_true_eq] at hab
    rw [if_neg (by omega)]
    simp only [decide_eq_true_eq]
    omega
  · rw [if_neg h1] at hab
    rw [if_neg h2] at hbc
    simp only [decide_eq_true_eq] at hab hbc
    rw [if_neg (by omega)]
    simp only [decide_eq_true_eq]
    omega

theorem mem_insertArchiveSorted (a x : ArchiveRow) (l : List ArchiveRow) :
    x ∈ insertArchiveSorted a l ↔ x = a ∨ x ∈ l := by
  induction l with
  | nil => simp [insertArchiveSorted]
  | cons b rest ih =>
    unfold insertArchiveSorted
    split_ifs
    · simp [List.mem_cons]
    · simp only [List.mem_cons, ih]
      tauto

theorem pairwise_insertArchiveSorted (a : ArchiveRow) (l : List ArchiveRow)
    (h : l.Pairwise (fun x y => archiveKeyLe x y = true)) :
    (insertArchiveSorted a l).Pairwise (fun x y => archiveKeyLe x y = true) := by
  induction l with
  | nil => simp [insertArchiveSorted]
  | cons b rest ih =>
    unfold insertArchiveSorted
    rcases List.pairwise_cons.mp h with ⟨hb, hrest⟩
    split_ifs with hab
    · refine List.pairwise_cons.mpr ⟨?_, h⟩
      intro y hy
      rcases List.mem_cons.mp hy with rfl | hy
      · exact hab
      · exact archiveKeyLe_trans a b y hab (hb y hy)
    · refine List.pairwise_cons.mpr ⟨?_, ih hrest⟩
      intro y hy
      rcases (mem_insertArchiveSorted a y rest).mp hy with h | hy
      · rw [h]
        rcases archiveKeyLe_total a b with hc | hc
        · exact absurd hc hab
        · exact hc
      · exact hb y hy

theorem mem_sortArchives (x : ArchiveRow) (l : List ArchiveRow) :
    x ∈ sortArchives l ↔ x ∈ l := by
  induction l with
  | nil => simp [sortArchives]
  | cons a rest ih =>
    unfold sortArchives
    rw [mem_insertArchiveSorted, ih, List.mem_cons]

theorem pairwise_sortArchives (l : List ArchiveRow) :
    (sortArchives l).Pairwise (fun x y => archiveKeyLe x y = true) := by
  induction l with
  | nil => simp [sortArchives]
  | cons a rest ih => exact pairwise_insertArchiveSorted a (sortArchives rest) ih

/-- C2 (amended): `get_pending` returns at most `n` rows, each an enabled
archive with no pending/in-progress queue entry, ordered by
`(priority ASC, last_checked_at ASC NULLS FIRST)`; the query applies no
condition on the effective next-check time. -/
theorem get_pending_characterization (db : DbState) (n : Nat) :
    (getPending db n).length ≤ n
  ∧ (∀ a ∈ getPending db n, a ∈ db.archives ∧ a.enabled = true
      ∧ hasOutstandingEntry db.archiveQueue a.id = false)
  ∧ (getPending db n).Pairwise (fun x y => archiveKeyLe x y = true) := by
  refine ⟨?_, ?_, ?_⟩
  · rw [getPending, List.length_take]
    omega
  · intro a ha
    have hmem := List.mem_of_mem_take ha
    rw [mem_sortArchives] at hmem
    rcases List.mem_filter.mp hmem with ⟨hin, hpred⟩
    simp only [Bool.and_eq_true, Bool.not_eq_true'] at hpred
    exact ⟨hin, hpred.1, hpred.2⟩
  · exact (pairwise_sortArchives _).sublist (List.take_sublist _ _)

/-- Witness for C2's amended statement on a concrete catalog. -/
theorem get_pending_characterization_witness :
    (getPending c2Db 10).length ≤ 10
  ∧ c2Archive ∈ c2Db.archives ∧ c2Archive.enabled = true
  ∧ hasOutstandingEntry c2Db.archiveQueue c2Archive.id = false := by
  have h := get_pending_characterization c2Db 10
  exact ⟨h.1, h.2.1 c2Archive (by decide)⟩

/-- C2 counterexample: a site checked at the current instant (well inside
every configured interval) is still returned by `get_pending`, so the
claimed next-check-time filter does not hold of the code. -/
theorem get_pending_ignores_next_check_time :
    getPending c2Db 10 = [c2Archive]
  ∧ specNextCheckPassed defaultConfig 100 c2Archive = false := by
  constructor
  · rfl
  · rfl

@[simp] theorem diffInsert_snapshots (db : DbState) (d : DiffRow) :
    (diffInsert db d).1.snapshots = db.snapshots := rfl

@[simp] theorem updateDiffVisualPath_snapshots (db : DbState) (did : Nat) (p : String) :
    (db.updateDiffVisualPath did p).snapshots = db.snapshots := rfl

theorem getSnapshotById_congr {db db' : DbState} (h : db.snapshots = db'.snapshots)
    (i : Nat) : getSnapshotById db i = getSnapshotById db' i := by
  simp [getSnapshotById, h]

theorem checkDiffExists_updateVisual (db : DbState) (did : Nat) (p : String)
    (o n : Nat) : checkDiffExists (db.updateDiffVisualPath did p) o n
      = checkDiffExists db o n := by
  simp only [checkDiffExists, DbState.updateDiffVisualPath, List.find?_map]
  have h1 : ((fun d => d.oldSnapshotId == o && d.newSnapshotId == n) ∘
      (fun d => if d.id = did then { d with visualDiffPath := some p } else d)) =
      (fun (d : DiffRow) => d.oldSnapshotId == o && d.newSnapshotId == n) := by
    funext d
    by_cases h : d.id = did <;> simp [h]
  rw [h1]
  cases db.diffs.find? (fun d => d.oldSnapshotId == o && d.newSnapshotId == n) with
  | none => rfl
  | some d =>
    by_cases h : d.id = did <;> simp [h]

theorem diffPairCount_updateVisual (db : DbState) (did : Nat) (p : String)
    (o n : Nat) : diffPairCount (db.updateDiffVisualPath did p) o n
      = diffPairCount db o n := by
  simp only [diffPairCount, DbState.updateDiffVisualPath, List.countP_map]
  congr 1
  funext d
  by_cases h : d.id = did <;> simp [h]

theorem checkDiffExists_diffInsert (db : DbState) (d : DiffRow)
    (h : checkDiffExists db d.oldSnapshotId d.newSnapshotId = none) :
    checkDiffExists (diffInsert db d).1 d.oldSnapshotId d.newSnapshotId
      = some (diffInsert db d).2 := by
  have h0 : db.diffs.find? (fun x => x.oldSnapshotId == d.oldSnapshotId
      && x.newSnapshotId == d.newSnapshotId) = none := by
    simpa [checkDiffExists, Option.map_eq_none'] using h
  simp [checkDiffExists, diffInsert, List.find?_append, h0]

theorem diffPairCount_diffInsert (db : DbState) (d : DiffRow) (o' n' : Nat) :
    diffPairCount (diffInsert db d).1 o' n' = diffPairCount db o' n'
      + (if d.oldSnapshotId = o' ∧ d.newSnapshotId = n' then 1 else 0) := by
  simp only [diffPairCount, diffInsert, List.countP_append, List.countP_cons,
    List.countP_nil]
  by_cases h : d.oldSnapshotId = o' ∧ d.newSnapshotId = n'
  · simp [h.1, h.2, if_pos h]
  · rw [if_neg h]
    rcases Decidable.not_and_iff_or_not.mp h with h1 | h1 <;> simp [h1]

theorem diffPairCount_eq_zero (db : DbState) (o n : Nat)
    (h : checkDiffExists db o n = none) : diffPairCount db o n = 0 := by
  rw [diffPairCount, List.countP_eq_zero]
  intro d hd
  have hf : db.diffs.find? (fun d => d.oldSnapshotId == o && d.newSnapshotId == n)
      = none := by
    simpa [checkDiffExists, Option.map_eq_none'] using h
  exact List.find?_eq_none.mp hf d hd

theorem visualStep_snd_snapshots (cfg : Config) (render : String → String → Option String)
    (oldSnap newSnap : SnapshotRow) (files : List (String × String)) (db : DbState)
    (a o n did : Nat) :
    (visualStep cfg render oldSnap newSnap files db a o n did).2.snapshots
      = db.snapshots := by
  unfold visualStep
  split_ifs
  · rcases generateVisualDiff render cfg.storagePath files a o n
      (oldSnap.screenshotPath.getD "") (newSnap.screenshotPath.getD "") with ⟨f', vp⟩
    cases vp <;> rfl
  · rfl

theorem visualStep_checkDiffExists (cfg : Config) (render : String → String → Option String)
    (oldSnap newSnap : SnapshotRow) (files : List (String × String)) (db : DbState)
    (a o n did o' n' : Nat) :
    checkDiffExists (visualStep cfg render oldSnap newSnap files db a o n did).2 o' n'
      = checkDiffExists db o' n' := by
  unfold visualStep
  split_ifs
  · rcases generateVisualDiff render cfg.storagePath files a o n
      (oldSnap.screenshotPath.getD "") (newSnap.screenshotPath.getD "") with ⟨f', vp⟩
    cases vp with
    | none => rfl
    | some p => exact checkDiffExists_updateVisual db did p o' n'
  · rfl

theorem visualStep_diffPairCount (cfg : Config) (render : String → String → Option String)
    (oldSnap newSnap : SnapshotRow) (files : List (String × String)) (db : DbState)
    (a o n did o' n' : Nat) :
    diffPairCount (visualStep cfg render oldSnap newSnap files db a o n did).2 o' n'
      = diffPairCount db o' n' := by
  unfold visualStep
  split_ifs
  · rcases generateVisualDiff render cfg.storagePath files a o n
      (oldSnap.screenshotPath.getD "") (newSnap.screenshotPath.getD "") with ⟨f', vp⟩
    cases vp with
    | none => rfl
    | some p => exact diffPairCount_updateVisual db did p o' n'
  · rfl

@[simp] theorem diffInsert_id (db : DbState) (d : DiffRow) :
    (diffInsert db d).2 = db.nextDiffId := rfl

/-- Evaluation of `generate_diff` on the full success path. -/
theorem generateDiff_success (cfg : Config) (sl : String → List String)
    (go : List String → List String → List Opcode) (je : List Hunk → String)
    (se : DiffStats → String) (rn : String → String → Option String)
    (st : SysState) (a o n t : Nat) (oldSnap newSnap : SnapshotRow)
    (ho : getSnapshotById st.db o = some oldSnap)
    (hn : getSnapshotById st.db n = some newSnap)
    (hex : checkDiffExists st.db o n = none)
    (hct : contentTruthy (getSnapshotContent st.files oldSnap) = true
      ∧ contentTruthy (getSnapshotContent st.files newSnap) = true) :
    ∃ st1, generateDiff cfg sl go je se rn st a o n t = (st1, some st.db.nextDiffId)
      ∧ st1.db.snapshots = st.db.snapshots
      ∧ checkDiffExists st1.db o n = some st.db.nextDiffId
      ∧ ∀ o' n', diffPairCount st1.db o' n' = diffPairCount st.db o' n'
          + (if o = o' ∧ n = n' then 1 else 0) := by
  simp only [generateDiff, ho, hn, hex]
  rw [if_pos hct]
  refine ⟨_, rfl, ?_, ?_, ?_⟩
  · rw [visualStep_snd_snapshots]
    rfl
  · rw [visualStep_checkDiffExists]
    exact checkDiffExists_diffInsert st.db _ hex
  · intro o' n'
    rw [visualStep_diffPairCount, diffPairCount_diffInsert]

/-- C5: `generate_diff` is idempotent per ordered snapshot pair — a second
invocation returns the same id and leaves the whole state (stored `diff.json`
included) untouched; when a diff row for the pair already exists and the
snapshots are found, the existing id is returned with no write; and the
at-most-one-diff-per-ordered-pair invariant is preserved. -/
theorem generate_diff_idempotent (cfg : Config) (sl : String → List String)
    (go : List String → List String → List Opcode) (je : List Hunk → String)
    (se : DiffStats → String) (rn : String → String → Option String)
    (st : SysState) (a o n t1 t2 : Nat) :
    generateDiff cfg sl go je se rn (generateDiff cfg sl go je se rn st a o n t1).1 a o n t2
        = generateDiff cfg sl go je se rn st a o n t1
  ∧ (∀ d, checkDiffExists st.db o n = some d →
      (∃ s, getSnapshotById st.db o = some s) →
      (∃ s, getSnapshotById st.db n = some s) →
      generateDiff cfg sl go je se rn st a o n t1 = (st, some d))
  ∧ ((∀ o' n', diffPairCount st.db o' n' ≤ 1) →
      ∀ o' n', diffPairCount (generateDiff cfg sl go je se rn st a o n t1).1.db o' n' ≤ 1) := by
  cases ho : getSnapshotById st.db o with
  | none =>
    have h1 : ∀ t, generateDiff cfg sl go je se rn st a o n t = (st, none) := by
      intro t
      simp only [generateDiff, ho]
    refine ⟨?_, ?_, ?_⟩
    · rw [h1 t1]
      exact h1 t2
    · intro d hd hso hsn
      rcases hso with ⟨s, hs⟩
      exact Option.noConfusion hs
    · intro hinv o' n'
      rw [h1 t1]
      exact hinv o' n'
  | some oldSnap =>
    cases hn : getSnapshotById st.db n with
    | none =>
      have h1 : ∀ t, generateDiff cfg sl go je se rn st a o n t = (st, none) := by
        intro t
        simp only [generateDiff, ho, hn]
      refine ⟨?_, ?_, ?_⟩
      · rw [h1 t1]
        exact h1 t2
      · intro d hd hso hsn
        rcases hsn with ⟨s, hs⟩
        exact Option.noConfusion hs
      · intro hinv o' n'
        rw [h1 t1]
        exact hinv o' n'
    | some newSnap =>
      cases hex : checkDiffExists st.db o n with
      | some d =>
        have h1 : ∀ t, generateDiff cfg sl go je se rn st a o n t = (st, some d) := by
          intro t
          simp only [generateDiff, ho, hn, hex]
        refine ⟨?_, ?_, ?_⟩
        · rw [h1 t1]
          exact h1 t2
        · intro d' hd' _ _
          cases hd'
          exact h1 t1
        · intro hinv o' n'
          rw [h1 t1]
          exact hinv o' n'
      | none =>
        by_cases hct : contentTruthy (getSnapshotContent st.files oldSnap) = true
            ∧ contentTruthy (getSnapshotContent st.files newSnap) = true
        · obtain ⟨st1, heq, hsnap, hex1, hcount⟩ :=
            generateDiff_success cfg sl go je se rn st a o n t1 oldSnap newSnap ho hn hex hct
          have ho1 : getSnapshotById st1.db o = some oldSnap := by
            rw [getSnapshotById_congr hsnap]
            exact ho
          have hn1 : getSnapshotById st1.db n = some newSnap := by
            rw [getSnapshotById_congr hsnap]
            exact hn
          refine ⟨?_, ?_, ?_⟩
          · rw [heq]
            simp only [generateDiff, ho1, hn1, hex1]
          · intro d hd _ _
            exact Option.noConfusion hd
          · intro hinv o' n'
            rw [heq]
            rw [hcount o' n']
            have h0 : diffPairCount st.db o n = 0 := diffPairCount_eq_zero st.db o n hex
            by_cases hp : o = o' ∧ n = n'
            · rcases hp with ⟨rfl, rfl⟩
              simp [h0]
            · rw [if_neg hp]
              have := hinv o' n'
              omega
        · have h1 : ∀ t, generateDiff cfg sl go je se rn st a o n t = (st, none) := by
            intro t
            simp only [generateDiff, ho, hn, hex]
            rw [if_neg hct]
          refine ⟨?_, ?_, ?_⟩
          · rw [h1 t1]
            exact h1 t2
          · intro d hd _ _
            exact Option.noConfusion hd
          · intro hinv o' n'
            rw [h1 t1]
            exact hinv o' n'

/-- Witness for C5 on a concrete store with two readable snapshots: the
double invocation collapses and at most one diff row exists for the pair. -/
theorem generate_diff_idempotent_witness :
    generateDiff defaultConfig (fun s => s.splitOn "\n") (fun _ _ => []) (fun _ => "")
        (fun _ => "") (fun _ _ => none)
        (generateDiff defaultConfig (fun s => s.splitOn "\n") (fun _ _ => []) (fun _ => "")
          (fun _ => "") (fun _ _ => none) c5St 1 1 2 100).1 1 1 2 200
      = generateDiff defaultConfig (fun s => s.splitOn "\n") (fun _ _ => []) (fun _ => "")
          (fun _ => "") (fun _ _ => none) c5St 1 1 2 100
  ∧ diffPairCount (generateDiff defaultConfig (fun s => s.splitOn "\n") (fun _ _ => [])
      (fun _ => "") (fun _ => "") (fun _ _ => none) c5St 1 1 2 100).1.db 1 2 ≤ 1 := by
  have h := generate_diff_idempotent defaultConfig (fun s => s.splitOn "\n") (fun _ _ => [])
    (fun _ => "") (fun _ => "") (fun _ _ => none) c5St 1 1 2 100 200
  refine ⟨h.1, h.2.2 ?_ 1 2⟩
  intro o' n'
  simp [diffPairCount, c5St, c5Db]

theorem latestChoose_foldl (l : List SnapshotRow) (acc : Option SnapshotRow) :
    l.foldl latestChoose acc = acc ∨ ∃ b ∈ l, l.foldl latestChoose acc = some b := by
  induction l generalizing acc with
  | nil => exact Or.inl rfl
  | cons s rest ih =>
    rw [List.foldl_cons]
    rcases ih (latestChoose acc s) with h | ⟨b, hb, h⟩
    · cases acc with
      | none =>
        refine Or.inr ⟨s, List.mem_cons_self _ _, ?_⟩
        rw [h]
        rfl
      | some b0 =>
        by_cases hlt : b0.captureTimestamp < s.captureTimestamp
        · refine Or.inr ⟨s, List.mem_cons_self _ _, ?_⟩
          rw [h]
          simp [latestChoose, hlt]
        · refine Or.inl ?_
          rw [h]
          simp [latestChoose, hlt]
    · exact Or.inr ⟨b, List.mem_cons_of_mem _ hb, h⟩

/-- Appending a snapshot strictly newer than every stored snapshot of the
archive makes it the latest. -/
theorem getLatestForArchive_append_newest (db : DbState) (aid : Nat)
    (snap : SnapshotRow) (l : List SnapshotRow)
    (hsnaps : db.snapshots = l ++ [snap]) (hid : snap.archiveId = aid)
    (hnew : ∀ s ∈ l, s.archiveId = aid →
      s.captureTimestamp < snap.captureTimestamp) :
    getLatestForArchive db aid = some snap := by
  unfold getLatestForArchive
  have hfil : List.filter (fun s => s.archiveId == aid) (l ++ [snap])
      = l.filter (fun s => s.archiveId == aid) ++ [snap] := by
    rw [List.filter_append]
    congr 1
    simp [hid]
  rw [hsnaps, hfil, List.foldl_append]
  rcases latestChoose_foldl (l.filter (fun s => s.archiveId == aid)) none
    with h | ⟨b, hb, h⟩
  · rw [List.foldl_cons, List.foldl_nil, h]
    rfl
  · rw [List.foldl_cons, List.foldl_nil, h]
    have hbmem := List.mem_filter.mp hb
    have hblt : b.captureTimestamp < snap.captureTimestamp :=
      hnew b hbmem.1 (by simpa using hbmem.2)
    simp [latestChoose, hblt]

theorem processChanges_self_latest (db : DbState) (rd : RedisState) (obj : ArchiveRow)
    (newSnap : SnapshotRow) (now : Nat)
    (hl : getLatestForArchive db obj.id = some newSnap) :
    processChanges db rd obj newSnap now = (db, rd, obj) := by
  simp only [processChanges, hl]
  rw [if_pos trivial]

@[simp] theorem updateArchive_snapshots (db : DbState) (aid : Nat)
    (f : ArchiveRow → ArchiveRow) : (db.updateArchive aid f).snapshots = db.snapshots := rfl

@[simp] theorem updateArchive_nextSnapshotId (db : DbState) (aid : Nat)
    (f : ArchiveRow → ArchiveRow) :
    (db.updateArchive aid f).nextSnapshotId = db.nextSnapshotId := rfl

theorem updateArchive_map_lastChanged (db : DbState) (aid t : Nat) :
    ((db.updateArchive aid (fun a => { a with lastCheckedAt := some t })).archives.map
      (fun x => x.lastChangedAt)) = db.archives.map (fun x => x.lastChangedAt) := by
  simp only [DbState.updateArchive, List.map_map]
  congr 1
  funext a
  by_cases h : a.id = aid <;> simp [h]

/-- C4 counterexample: a direct `update_change_time` at time 11 right after
`update_check_time` at time 10 leaves a reachable row with
`last_checked_at = 10 < last_changed_at = 11`, falsifying the claimed
invariant `last_changed_at ≤ last_checked_at`. -/
theorem change_time_can_exceed_check_time :
    (updateChangeTime (updateCheckTime c4Archive c4Db 10).1
        (updateCheckTime c4Archive c4Db 10).2 11).2.archives
      = [⟨3, "site.gov", 3, true, some 10, some 11⟩]
  ∧ ¬(11 ≤ 10) := by decide

/-- C4 (amended): the exposed mutations do not enforce the invariant — a
direct `update_change_time` after `update_check_time` at a strictly later
time violates it — but the capture flow itself never touches
`last_changed_at`: when the capture time is newer than every stored snapshot
of the site, change detection compares the just-saved snapshot against
itself and exits, so `crawl_archive` leaves `last_changed_at` unchanged on
the object and on every row and preserves the invariant wherever it held. -/
theorem capture_flow_preserves_invariant (db : DbState) (rd : RedisState)
    (obj : ArchiveRow) (result : CrawlResult) (now : Nat)
    (hsnap : ∀ s ∈ db.snapshots, s.archiveId = obj.id → s.captureTimestamp < now)
    (hinv : ∀ x ∈ db.archives, ∀ tch tc, x.lastChangedAt = some tch →
      x.lastCheckedAt = some tc → tch ≤ tc)
    (hnow : ∀ x ∈ db.archives, ∀ tch, x.lastChangedAt = some tch → tch ≤ now) :
    (crawlArchive db rd obj result now).obj.lastChangedAt = obj.lastChangedAt
  ∧ (crawlArchive db rd obj result now).db.archives.map (fun x => x.lastChangedAt)
      = db.archives.map (fun x => x.lastChangedAt)
  ∧ ∀ x ∈ (crawlArchive db rd obj result now).db.archives, ∀ tch tc,
      x.lastChangedAt = some tch → x.lastCheckedAt = some tc → tch ≤ tc := by
  by_cases hs : result.success = true
  · simp only [crawlArchive, if_pos hs, updateCheckTime, snapshotInsert,
      updateArchive_snapshots, updateArchive_nextSnapshotId]
    rw [processChanges_self_latest]
    · refine ⟨rfl, updateArchive_map_lastChanged db obj.id now, ?_⟩
      intro x hx tch tc h1 h2
      simp only [DbState.updateArchive] at hx
      obtain ⟨a, ha, rfl⟩ := List.mem_map.mp hx
      by_cases h : a.id = obj.id
      · rw [if_pos h] at h1 h2
        simp only at h1 h2
        cases h2
        exact hnow a ha tch h1
      · rw [if_neg h] at h1 h2
        exact hinv a ha tch tc h1 h2
    · exact getLatestForArchive_append_newest _ _ _ db.snapshots rfl rfl
        (fun s hs1 hs2 => hsnap s hs1 hs2)
  · simp only [crawlArchive, if_neg hs]
    exact ⟨trivial, trivial, hinv⟩

/-- Witness for C4's amended statement: on a fresh site with no snapshots, a
successful capture leaves `last_changed_at` unset and the invariant intact. -/
theorem capture_flow_preserves_invariant_witness :
    (crawlArchive c4Db RedisState.empty c4Archive { success := true } 20).obj.lastChangedAt
      = none
  ∧ ∀ x ∈ (crawlArchive c4Db RedisState.empty c4Archive
        { success := true } 20).db.archives, ∀ tch tc,
      x.lastChangedAt = some tch → x.lastCheckedAt = some tc → tch ≤ tc := by
  have h := capture_flow_preserves_invariant c4Db RedisState.empty c4Archive
    { success := true } 20
    (by intro s hs; simp [c4Db] at hs)
    (by
      intro x hx tch tc h1 h2
      simp only [c4Db, List.mem_singleton] at hx
      rw [hx] at h1
      exact Option.noConfusion h1)
    (by
      intro x hx tch h1
      simp only [c4Db, List.mem_singleton] at hx
      rw [hx] at h1
      exact Option.noConfusion h1)
  exact ⟨h.1, h.2.2⟩

/-- C1 (code bug): a successful capture whose content hash differs from the
single stored snapshot's hash triggers no change handling: the change
detector fetches the latest snapshot including the one just saved, sees its
own id, and exits.  No diff job is enqueued, no `archive_queue` row is
written, and `last_changed_at` stays unset, even though two stored snapshots
with different hashes now exist. -/
theorem change_detection_never_fires :
    (crawlArchive c1Db RedisState.empty c1Archive c1Result 20).ok = true
  ∧ (crawlArchive c1Db RedisState.empty c1Archive c1Result 20).db.snapshots
      = [⟨1, 1, 10, "h1", 200, none, none, none⟩, ⟨2, 1, 20, "h2", 200, none, none, none⟩]
  ∧ (crawlArchive c1Db RedisState.empty c1Archive c1Result 20).db.archiveQueue = []
  ∧ (crawlArchive c1Db RedisState.empty c1Archive c1Result 20).redis = RedisState.empty
  ∧ (crawlArchive c1Db RedisState.empty c1Archive c1Result 20).db.archives
      = [⟨1, "example.gov", 3, true, some 20, none⟩] := by decide

/-- C3 counterexample: a 503 capture records the status in the result but
`crawl_archive` does not advance `last_checked_at` — the site row is left
with `last_checked_at = NULL`, contradicting the claimed advance; no
snapshot is written. -/
theorem non200_leaves_check_time_unchanged :
    (crawl defaultConfig (fun s => s) (fun s => s) true true "/tmp" "down.gov"
        c3Resp 50).statusCode = some 503
  ∧ (crawl defaultConfig (fun s => s) (fun s => s) true true "/tmp" "down.gov"
        c3Resp 50).error = some "HTTP status code: 503"
  ∧ (crawlArchive c3Db RedisState.empty c3Archive
      (crawl defaultConfig (fun s => s) (fun s => s) true true "/tmp" "down.gov"
        c3Resp 50) 50).db.snapshots = []
  ∧ (crawlArchive c3Db RedisState.empty c3Archive
      (crawl defaultConfig (fun s => s) (fun s => s) true true "/tmp" "down.gov"
        c3Resp 50) 50).db.archives = [c3Archive] := by decide

/-- C3 (amended): a non-200 capture is terminal for the cycle — the crawl
result is unsuccessful with the HTTP status recorded in `status_code` and
`error`, and `crawl_archive` writes no snapshot and leaves the database,
queues and site object (its `last_checked_at` included) untouched, returning
`False`. -/
theorem non200_terminal (cfg : Config) (sha ext : String → String) (sOk pOk : Bool)
    (td : String) (db : DbState) (rd : RedisState) (obj : ArchiveRow)
    (resp : HttpResponse) (now : Nat) (h : resp.statusCode ≠ 200) :
    (crawl cfg sha ext sOk pOk td obj.domain resp now).success = false
  ∧ (crawl cfg sha ext sOk pOk td obj.domain resp now).statusCode = some resp.statusCode
  ∧ (crawl cfg sha ext sOk pOk td obj.domain resp now).error
      = some ("HTTP status code: " ++ toString resp.statusCode)
  ∧ crawlArchive db rd obj (crawl cfg sha ext sOk pOk td obj.domain resp now) now
      = ⟨db, rd, obj, false⟩ := by
  have hcr : crawl cfg sha ext sOk pOk td obj.domain resp now =
      { statusCode := some resp.statusCode,
        metadata := [("url", "https://" ++ obj.domain), ("timestamp", toString now),
          ("domain", obj.domain)] ++ [("final_url", resp.finalUrl)],
        error := some ("HTTP status code: " ++ toString resp.statusCode) } := by
    simp only [crawl]
    rw [if_pos h]
  refine ⟨by rw [hcr], by rw [hcr], by rw [hcr], ?_⟩
  rw [hcr]
  simp [crawlArchive]

/-- Witness for C3's amended statement at the concrete 503 capture. -/
theorem non200_terminal_witness :
    (crawl defaultConfig (fun s => s) (fun s => s) true true "/tmp" c3Archive.domain
        c3Resp 50).success = false
  ∧ crawlArchive c3Db RedisState.empty c3Archive
      (crawl defaultConfig (fun s => s) (fun s => s) true true "/tmp" c3Archive.domain
        c3Resp 50) 50 = ⟨c3Db, RedisState.empty, c3Archive, false⟩ := by
  have h := non200_terminal defaultConfig (fun s => s) (fun s => s) true true "/tmp"
    c3Db RedisState.empty c3Archive c3Resp 50 (by decide)
  exact ⟨h.1, h.2.2.2⟩

end GovWatcher
